import Mathlib

/-!
A shallow embedding of `sptr.h`, a header-only C library of runtime-checked
handles for dynamically allocated arrays.

Memory model. The checked-mode handle (`sptr`, lines 39-43 of the source)
carries a raw data pointer `ptr`, an element count `size` (a `size_t`), and a
pointer `isf` to a one-byte "is-freed" cell shared by reference among all
value copies of the handle. We model the two kinds of malloc'd blocks as two
append-only heaps: a list of flag cells (`Cell`) and a list of element buffers
(`Buf`). A pointer is an `Option Nat` index into the matching list, `none`
standing for the C null pointer. `free` marks a block's `alive` bit false but
keeps its last contents readable: this is the allocator behaviour the source
itself relies on, since `sptr_free` frees the flag cell (line 76) and the
later double-free / use-after-free checks still read it; the `alive` bit lets
us state exactly which checks read memory that was already returned to the
allocator. Dereferencing a null pointer is modelled as an explicit
undefined-behaviour outcome (`ubNullDeref` / `ubNullWrite`) rather than a
clean error report, mirroring where the C program has no defined behaviour.
-/

namespace SptrH

/-- One malloc'd freed-flag cell (`char`): its boolean value and whether the
block is still allocated. Freed cells keep their last value readable. -/
structure Cell where
  val : Bool
  alive : Bool
  deriving DecidableEq

/-- One malloc'd element buffer: its contents and whether the block is still
allocated. Freed buffers keep their last contents readable. -/
structure Buf (α : Type) where
  data : List α
  alive : Bool
  deriving DecidableEq

/-- The checked-mode handle, source lines 39-43:
`typedef struct { void* ptr; size_t size; char *isf; } sptr;`.
`ptr` and `isf` are pointers (`none` = NULL), `size` a `size_t`. -/
structure sptr where
  ptr : Option Nat
  size : Nat
  isf : Option Nat
  deriving DecidableEq

/-- Outcome of one evaluation of the `sptr_at` macro. `indexOutOfRange` and
`useAfterFree` are the two `fprintf` + `exit(1)` reports; `ubNullDeref` marks
the undefined behaviour of evaluating `*sp.isf` when `sp.isf` is NULL;
`ubInvalidRead` marks a read through a designator that denotes no element. -/
inductive AtResult (α : Type) where
  | ok (a : α)
  | indexOutOfRange
  | useAfterFree
  | ubNullDeref
  | ubInvalidRead
  deriving DecidableEq

/-- Outcome of one evaluation of the `sptr_free` macro. -/
inductive FreeResult where
  | ok
  | doubleFree
  | ubNullDeref
  | ubInvalidRead
  deriving DecidableEq

/-- `sptr_at(type, sp, ind)`, source lines 56-66. First the bounds check
`ind >= sp.size || ind < 0` (with `ind` an `int` and `sp.size` a `size_t` the
C comparison converts a negative `ind` to a huge unsigned value, so the C
condition fires exactly when the mathematical disjunction below does). Then
the liveness check `(*sp.isf || !sp.isf)`: the left operand of `||` is
evaluated first, so the cell is dereferenced before the null test — with a
NULL `isf` this is a null dereference, not a clean report. Only when both
checks pass is the element designator `((type*)sp.ptr)+ind` produced; we model
that lvalue as the pair (buffer pointer, element index), standing for the
byte address `sp.ptr + ind * sizeof(type)`. -/
def sptr_at (flags : List Cell) (sp : sptr) (ind : Int) : AtResult (Option Nat × Nat) :=
  if (sp.size : Int) ≤ ind ∨ ind < 0 then
    .indexOutOfRange
  else
    match sp.isf with
    | none => .ubNullDeref
    | some cid =>
      match flags[cid]? with
      | none => .ubInvalidRead
      | some c => if c.val then .useAfterFree else .ok (sp.ptr, ind.toNat)

/-- The flag cell that `sptr_at`'s liveness check `(*sp.isf || ...)` (line 61)
dereferences: none when the bounds check exits first or `isf` is NULL. -/
def sptr_at_flagRead (sp : sptr) (ind : Int) : Option Nat :=
  if (sp.size : Int) ≤ ind ∨ ind < 0 then none else sp.isf

/-- The flag cell that `sptr_free`'s double-free check `(*sp.isf || ...)`
(line 70) dereferences. -/
def sptr_free_flagRead (sp : sptr) : Option Nat :=
  sp.isf

/-- Whether flag cell `cid` is still an allocated (not yet freed) block. -/
def flagAliveAt (flags : List Cell) (cid : Nat) : Bool :=
  match flags[cid]? with
  | some c => c.alive
  | none => false

/-- `free(p)` on an element buffer: a no-op on NULL, otherwise the block is
marked no longer allocated (its contents stay readable in this model). -/
def freeBuf {α : Type} (bufs : List (Buf α)) (p : Option Nat) : List (Buf α) :=
  match p with
  | none => bufs
  | some b =>
    match bufs[b]? with
    | none => bufs
    | some buf => bufs.set b ⟨buf.data, false⟩

/-- Writing a boolean through a flag-cell pointer (`*isf = v`). -/
def setFlagVal (flags : List Cell) (cid : Nat) (v : Bool) : List Cell :=
  match flags[cid]? with
  | none => flags
  | some c => flags.set cid ⟨v, c.alive⟩

/-- `free(isf)` on a flag cell: the block is marked no longer allocated. -/
def freeFlag (flags : List Cell) (cid : Nat) : List Cell :=
  match flags[cid]? with
  | none => flags
  | some c => flags.set cid ⟨c.val, false⟩

/-- `sptr_free(sp)`, source lines 68-77. The double-free check
`if (*sp.isf || !sp.isf)` dereferences the cell before the null test (NULL
`isf` is a null dereference). On a detected double free it reports and
`exit(1)`s with no state change. Otherwise `*sp.isf = 1`, then
`free(sp.ptr)`, then `free(sp.isf)`. -/
def sptr_free {α : Type} (flags : List Cell) (bufs : List (Buf α)) (sp : sptr) :
    FreeResult × List Cell × List (Buf α) :=
  match sp.isf with
  | none => (.ubNullDeref, flags, bufs)
  | some cid =>
    match flags[cid]? with
    | none => (.ubInvalidRead, flags, bufs)
    | some c =>
      if c.val then
        (.doubleFree, flags, bufs)
      else
        let flags1 := setFlagVal flags cid true
        let bufs1 := freeBuf bufs sp.ptr
        let flags2 := freeFlag flags1 cid
        (.ok, flags2, bufs1)

/-- Outcome of one evaluation of the `sptr_alloc` macro: success carries the
new heaps and the handle; `allocationFailure` is the `fprintf` + `exit(1)`
report for a NULL element buffer; `ubNullWrite` marks the undefined behaviour
of `*isf = 0` when the flag-cell malloc returned NULL. -/
inductive AllocResult (α : Type) where
  | ok (flags : List Cell) (bufs : List (Buf α)) (sp : sptr)
  | allocationFailure
  | ubNullWrite
  deriving DecidableEq

/-- `sptr_alloc(type, size)`, source lines 45-54, statement by statement.
`pFail` / `isfFail` say whether the two `malloc` calls return NULL (the model
of allocator exhaustion); on success each returns a fresh block appended to
the matching heap. `malloc` contents are unspecified, modelled as
`List.replicate size init` for a caller-chosen junk value `init` (and a junk
`true` in the fresh flag cell, overwritten by `*isf = 0`). The statement
order of the source is kept: `p = malloc(...)`, `isf = malloc(...)`,
`*isf = 0` — a write with no null check on `isf` — and only then
`if (!p) { report; exit(1); }`. -/
def sptr_alloc {α : Type} (flags : List Cell) (bufs : List (Buf α))
    (pFail isfFail : Bool) (init : α) (size : Nat) : AllocResult α :=
  let pRes : Option Nat := if pFail then none else some bufs.length
  let bufs1 := if pFail then bufs else bufs ++ [⟨List.replicate size init, true⟩]
  let isfRes : Option Nat := if isfFail then none else some flags.length
  let flags1 := if isfFail then flags else flags ++ [⟨true, true⟩]
  match isfRes with
  | none => .ubNullWrite
  | some cid =>
    let flags2 := setFlagVal flags1 cid false
    match pRes with
    | none => .allocationFailure
    | some b => .ok flags2 bufs1 ⟨some b, size, some cid⟩

/-- Reading the element an `sptr_at` designator denotes (dereferencing the
lvalue `((type*)sp.ptr)+ind` as an rvalue): none when the pointer is NULL or
the designator falls outside any block's contents. -/
def bufRead {α : Type} (bufs : List (Buf α)) (pr : Option Nat × Nat) : Option α :=
  match pr.1 with
  | none => none
  | some b =>
    match bufs[b]? with
    | none => none
    | some buf => buf.data[pr.2]?

/-- Writing through an `sptr_at` designator (assigning to the lvalue
`((type*)sp.ptr)+ind`): a no-op when the designator denotes no element. -/
def bufWrite {α : Type} (bufs : List (Buf α)) (pr : Option Nat × Nat) (v : α) :
    List (Buf α) :=
  match pr.1 with
  | none => bufs
  | some b =>
    match bufs[b]? with
    | none => bufs
    | some buf => bufs.set b ⟨buf.data.set pr.2 v, buf.alive⟩

/-- `sptr_mat(type, sp, i, j)`, source line 28:
`sptr_at(type, sptr_at(sptr, sp, i), j)` — index the outer handle at row `i`,
read the inner handle that lvalue holds, then index it at column `j`. An
error in the outer access exits the process there, so the column index is
never examined. -/
def sptr_mat (flags : List Cell) (obufs : List (Buf sptr)) (sp : sptr) (i j : Int) :
    AtResult (Option Nat × Nat) :=
  match sptr_at flags sp i with
  | .ok pr =>
    match bufRead obufs pr with
    | some inner => sptr_at flags inner j
    | none => .ubInvalidRead
  | .indexOutOfRange => .indexOutOfRange
  | .useAfterFree => .useAfterFree
  | .ubNullDeref => .ubNullDeref
  | .ubInvalidRead => .ubInvalidRead

/-- The Fast Mode (RELEASE_MODE) handle, source line 32:
`typedef struct { void* ptr; int size;} sptr;` — a plain pointer/count pair
with no freed-flag at all. -/
structure fsptr where
  ptr : Option Nat
  size : Nat
  deriving DecidableEq

/-- The Fast-Mode view of a checked-mode handle: the same pointer and count,
the flag pointer erased. -/
def toFast (sp : sptr) : fsptr :=
  ⟨sp.ptr, sp.size⟩

/-- Fast-Mode `sptr_alloc`, line 33: `(sptr){malloc(sizeof(type)*size),size}`
— one allocation, no flag cell, no checks of any kind. -/
def fsptr_alloc {α : Type} (bufs : List (Buf α)) (init : α) (size : Nat) :
    List (Buf α) × fsptr :=
  (bufs ++ [⟨List.replicate size init, true⟩], ⟨some bufs.length, size⟩)

/-- Fast-Mode `sptr_at`, line 34: `(*(((type*)sp.ptr)+ind))` — the raw element
designator with no validation. -/
def fsptr_at (sp : fsptr) (ind : Int) : Option Nat × Nat :=
  (sp.ptr, ind.toNat)

/-- Fast-Mode `sptr_free`, line 35: `free(sp.ptr)` — direct deallocation, no
double-free detection. -/
def fsptr_free {α : Type} (bufs : List (Buf α)) (sp : fsptr) : List (Buf α) :=
  freeBuf bufs sp.ptr

/-- One client operation of a program trace against the library: allocate a
new handle, write a value through an access, read through an access, or
release a handle. Handles are named by allocation order. -/
inductive Op (α : Type) where
  | alloc (n : Nat) (init : α)
  | write (h : Nat) (i : Int) (v : α)
  | read (h : Nat) (i : Int)
  | free (h : Nat)
  deriving DecidableEq

/-- Checked-mode program state: the two heaps, the handles allocated so far
(in order), and the values read so far. -/
structure CSt (α : Type) where
  flags : List Cell
  bufs : List (Buf α)
  hs : List sptr
  reads : List (Option α)
  deriving DecidableEq

/-- One checked-mode step. `none` is the trace committing a violation: a
check fired (`fprintf` + `exit(1)`) or the step hit undefined behaviour —
either way the process is gone. The modelled allocator never exhausts
(`pFail` and `isfFail` are `false`), matching the refinement claim's scope of
traces whose allocations succeed. -/
def cstep {α : Type} (s : CSt α) (op : Op α) : Option (CSt α) :=
  match op with
  | .alloc n init =>
    match sptr_alloc s.flags s.bufs false false init n with
    | .ok flags2 bufs2 sp =>
      some { s with flags := flags2, bufs := bufs2, hs := s.hs ++ [sp] }
    | .allocationFailure => none
    | .ubNullWrite => none
  | .write h i v =>
    match s.hs[h]? with
    | none => none
    | some sp =>
      match sptr_at s.flags sp i with
      | .ok pr =>
        match bufRead s.bufs pr with
        | some _ => some { s with bufs := bufWrite s.bufs pr v }
        | none => none
      | _ => none
  | .read h i =>
    match s.hs[h]? with
    | none => none
    | some sp =>
      match sptr_at s.flags sp i with
      | .ok pr =>
        match bufRead s.bufs pr with
        | some v => some { s with reads := s.reads ++ [some v] }
        | none => none
      | _ => none
  | .free h =>
    match s.hs[h]? with
    | none => none
    | some sp =>
      match sptr_free s.flags s.bufs sp with
      | (.ok, flags2, bufs2) => some { s with flags := flags2, bufs := bufs2 }
      | _ => none

/-- Fast-Mode program state: one heap (there are no flag cells), the handles
allocated so far, and the values read so far. -/
structure FSt (α : Type) where
  bufs : List (Buf α)
  hs : List fsptr
  reads : List (Option α)
  deriving DecidableEq

/-- One Fast-Mode step. There is no validation to fail: reads and writes go
straight through the raw designator. An unknown handle name is a no-op here
(such a trace is already a violation in checked mode, outside the refinement
claim's scope). -/
def fstep {α : Type} (s : FSt α) (op : Op α) : FSt α :=
  match op with
  | .alloc n init =>
    let r := fsptr_alloc s.bufs init n
    { s with bufs := r.1, hs := s.hs ++ [r.2] }
  | .write h i v =>
    match s.hs[h]? with
    | none => s
    | some sp => { s with bufs := bufWrite s.bufs (fsptr_at sp i) v }
  | .read h i =>
    match s.hs[h]? with
    | none => s
    | some sp => { s with reads := s.reads ++ [bufRead s.bufs (fsptr_at sp i)] }
  | .free h =>
    match s.hs[h]? with
    | none => s
    | some sp => { s with bufs := fsptr_free s.bufs sp }

/-- Run a trace in checked mode from a given (possibly already dead) state. -/
def crunFrom {α : Type} : Option (CSt α) → List (Op α) → Option (CSt α)
  | s, [] => s
  | s, op :: t => crunFrom (s.bind fun st => cstep st op) t

/-- Run a trace in checked mode from the empty initial state; `none` when the
trace commits a violation. -/
def crun {α : Type} (t : List (Op α)) : Option (CSt α) :=
  crunFrom (some ⟨[], [], [], []⟩) t

/-- Run a trace in Fast Mode from a given state. -/
def frunFrom {α : Type} : FSt α → List (Op α) → FSt α
  | s, [] => s
  | s, op :: t => frunFrom (fstep s op) t

/-- Run a trace in Fast Mode from the empty initial state. -/
def frun {α : Type} (t : List (Op α)) : FSt α :=
  frunFrom ⟨[], [], []⟩ t

/-- The erasure relation between a checked-mode state and a Fast-Mode state:
the same buffer heap, the same handles minus their flag pointers, and the
same read results. -/
def SimR {α : Type} (s : CSt α) (f : FSt α) : Prop :=
  f.bufs = s.bufs ∧ f.hs = s.hs.map toFast ∧ f.reads = s.reads

/-- Setting the appended element of a list addresses exactly that element. -/
theorem concat_set_self {α : Type} (l : List α) (a b : α) :
    (l ++ [a]).set l.length b = l ++ [b] := by
  induction l with
  | nil => rfl
  | cons x xs ih => simp [ih]

/-- When both `malloc` calls succeed, `sptr_alloc` appends a cleared flag cell
and the element buffer and hands back the handle pointing at both. -/
theorem sptr_alloc_ok {α : Type} (flags : List Cell) (bufs : List (Buf α))
    (init : α) (n : Nat) :
    sptr_alloc flags bufs false false init n =
      .ok (flags ++ [⟨false, true⟩]) (bufs ++ [⟨List.replicate n init, true⟩])
        ⟨some bufs.length, n, some flags.length⟩ := by
  simp [sptr_alloc, setFlagVal, List.getElem?_concat_length, concat_set_self]

/-- On a handle whose flag cell holds `false`, `sptr_free` succeeds: it sets
the cell to `true`, frees the element buffer, and frees the cell itself. -/
theorem sptr_free_ok_spec {α : Type} (flags : List Cell) (bufs : List (Buf α))
    (sp : sptr) (cid : Nat) (c : Cell) (hisf : sp.isf = some cid)
    (hc : flags[cid]? = some c) (hval : c.val = false) :
    sptr_free flags bufs sp = (.ok, flags.set cid ⟨true, false⟩, freeBuf bufs sp.ptr) := by
  have hlt : cid < flags.length := (List.getElem?_eq_some.mp hc).1
  have hset : setFlagVal flags cid true = flags.set cid ⟨true, c.alive⟩ := by
    simp [setFlagVal, hc]
  have hget2 : (flags.set cid ⟨true, c.alive⟩)[cid]? = some ⟨true, c.alive⟩ :=
    List.getElem?_set_self hlt
  simp [sptr_free, hisf, hc, hval, hset, freeFlag, hget2, List.set_set]

/-- A successful `sptr_free` can only have come from a handle with a live,
unset flag cell, and its effect is exactly the one of `sptr_free_ok_spec`. -/
theorem sptr_free_ok_inv {α : Type} {flags flags2 : List Cell}
    {bufs bufs2 : List (Buf α)} {sp : sptr}
    (h : sptr_free flags bufs sp = (.ok, flags2, bufs2)) :
    ∃ cid c, sp.isf = some cid ∧ flags[cid]? = some c ∧ c.val = false ∧
      flags2 = flags.set cid ⟨true, false⟩ ∧ bufs2 = freeBuf bufs sp.ptr := by
  cases hisf : sp.isf with
  | none => simp [sptr_free, hisf] at h
  | some cid =>
    cases hc : flags[cid]? with
    | none => simp [sptr_free, hisf, hc] at h
    | some c =>
      cases hval : c.val with
      | true => simp [sptr_free, hisf, hc, hval] at h
      | false =>
        rw [sptr_free_ok_spec flags bufs sp cid c hisf hc hval] at h
        simp only [Prod.mk.injEq] at h
        exact ⟨cid, c, rfl, hc, hval, h.2.1.symm, h.2.2.symm⟩

/-- A successful `sptr_at` yields exactly the designator of element `i`
(`((type*)sp.ptr)+ind` on line 65). -/
theorem sptr_at_ok_inv {flags : List Cell} {sp : sptr} {i : Int}
    {pr : Option Nat × Nat} (h : sptr_at flags sp i = .ok pr) :
    pr = (sp.ptr, i.toNat) := by
  unfold sptr_at at h
  split at h
  · simp at h
  · split at h
    · simp at h
    · split at h
      · simp at h
      · split at h
        · simp at h
        · simp at h; exact h.symm

/-- A checked run that has already died stays dead. -/
theorem crunFrom_none {α : Type} (t : List (Op α)) :
    crunFrom (none : Option (CSt α)) t = none := by
  induction t with
  | nil => rfl
  | cons op t ih => simpa [crunFrom] using ih

/-- C1: after a successful `sptr_free(h1)`, every handle sharing `h1`'s
freed-flag cell — in particular every value copy `h2` of `h1`, since copying
the struct copies the `isf` pointer, not the cell — observes the retirement:
`sptr_at(h2, i)` for any `i` in `[0, h2.size)` reports use-after-free and
`sptr_free(h2)` reports double free, leaving the state unchanged. (In the
modelled allocator a freed cell keeps its last value readable; that the check
reads a freed cell at all is the separate finding proved in
`liveness_checks_read_freed_cell`.) -/
theorem freed_flag_shared_across_copies {α : Type} {flags flags2 : List Cell}
    {bufs bufs2 : List (Buf α)} {sp sp2 : sptr}
    (hcopy : sp2.isf = sp.isf)
    (hfree : sptr_free flags bufs sp = (.ok, flags2, bufs2)) :
    (∀ i : Int, 0 ≤ i → i < (sp2.size : Int) → sptr_at flags2 sp2 i = .useAfterFree) ∧
    (sptr_free flags2 bufs2 sp2).1 = .doubleFree := by
  obtain ⟨cid, c, hisf, hc, hval, hf2, hb2⟩ := sptr_free_ok_inv hfree
  have hlt : cid < flags.length := (List.getElem?_eq_some.mp hc).1
  have hget : flags2[cid]? = some ⟨true, false⟩ := by
    rw [hf2]; exact List.getElem?_set_self hlt
  constructor
  · intro i h0 hsz
    have hbnd : ¬ ((sp2.size : Int) ≤ i ∨ i < 0) := by omega
    simp [sptr_at, hbnd, hcopy, hisf, hget]
  · simp [sptr_free, hcopy, hisf, hget]

/-- Witness for C1 at a concrete one-element allocation. -/
theorem freed_flag_shared_across_copies_witness :
    sptr_at [⟨true, false⟩] ⟨some 0, 1, some 0⟩ 0 = .useAfterFree ∧
    (sptr_free [⟨true, false⟩] [(⟨[(5 : Int)], false⟩ : Buf Int)] ⟨some 0, 1, some 0⟩).1 =
      .doubleFree := by
  have h := @freed_flag_shared_across_copies Int [⟨false, true⟩] [⟨true, false⟩]
    [⟨[(5 : Int)], true⟩] [⟨[(5 : Int)], false⟩] ⟨some 0, 1, some 0⟩ ⟨some 0, 1, some 0⟩
    rfl (by decide)
  exact ⟨h.1 0 (by decide) (by decide), h.2⟩

/-- C2: the claim says a handle with no freed-flag cell (`isf == NULL`) is
rejected with clean UseAfterFree / DoubleFree reports "without ever
dereferencing the missing flag cell". The code does the opposite: the checks
`(*sp.isf || !sp.isf)` on lines 61 and 70 evaluate `*sp.isf` first, so with a
NULL `isf` the cell is dereferenced (undefined behaviour) before the
`!sp.isf` test can fire — a valid-index access and any release on such a
handle hit the null dereference instead of a report. A zero-valued handle
(`size == 0`) never even reaches the liveness check on access: its bounds
check reports IndexOutOfRange for every index. -/
theorem null_isf_checks_dereference_null :
    sptr_at ([] : List Cell) ⟨some 0, 1, none⟩ 0 = .ubNullDeref ∧
    (sptr_free ([] : List Cell) [(⟨[(0 : Int)], true⟩ : Buf Int)] ⟨some 0, 1, none⟩).1 =
      .ubNullDeref ∧
    sptr_at ([] : List Cell) ⟨none, 0, none⟩ 0 = .indexOutOfRange := by
  decide

/-- C3: `sptr_free` itself frees the shared flag cell (`free(sp.isf)`,
line 76): after a successful release the cell is no longer allocated, yet the
liveness check of any later `sptr_at` and the double-free check of any later
`sptr_free` dereference exactly that cell — post-release misuse detection
reads memory already returned to the allocator, contrary to the claim. In the
modelled allocator the stale read still sees `true` and reports
use-after-free; under the C abstract machine the read itself is undefined. -/
theorem liveness_checks_read_freed_cell :
    (sptr_free [⟨false, true⟩] [(⟨[(7 : Int)], true⟩ : Buf Int)] ⟨some 0, 1, some 0⟩).1 = .ok ∧
    flagAliveAt
      (sptr_free [⟨false, true⟩] [(⟨[(7 : Int)], true⟩ : Buf Int)] ⟨some 0, 1, some 0⟩).2.1
      0 = false ∧
    sptr_at_flagRead ⟨some 0, 1, some 0⟩ 0 = some 0 ∧
    sptr_free_flagRead ⟨some 0, 1, some 0⟩ = some 0 ∧
    sptr_at
      (sptr_free [⟨false, true⟩] [(⟨[(7 : Int)], true⟩ : Buf Int)] ⟨some 0, 1, some 0⟩).2.1
      ⟨some 0, 1, some 0⟩ 0 = .useAfterFree := by
  decide

/-- C4: on a freshly allocated handle the first `sptr_free` succeeds — the
shared flag is set to `true` and both blocks are reclaimed (their `alive`
bits drop) — and a second `sptr_free` of the same handle reports double free
and, because the check precedes any reclamation, returns with the state
completely unchanged. -/
theorem first_free_ok_second_free_double_free {α : Type} {flags flags1 : List Cell}
    {bufs bufs1 : List (Buf α)} {init : α} {n : Nat} {sp : sptr}
    (halloc : sptr_alloc flags bufs false false init n = .ok flags1 bufs1 sp) :
    ∃ flags2 bufs2 cid b,
      sptr_free flags1 bufs1 sp = (.ok, flags2, bufs2) ∧
      sp.isf = some cid ∧ flags2[cid]? = some ⟨true, false⟩ ∧
      sp.ptr = some b ∧ bufs2[b]? = some ⟨List.replicate n init, false⟩ ∧
      sptr_free flags2 bufs2 sp = (.doubleFree, flags2, bufs2) := by
  rw [sptr_alloc_ok] at halloc
  injection halloc with h1 h2 h3
  subst h1; subst h2; subst h3
  refine ⟨flags ++ [⟨true, false⟩], bufs ++ [⟨List.replicate n init, false⟩],
    flags.length, bufs.length, ?_, rfl, ?_, rfl, ?_, ?_⟩
  · rw [sptr_free_ok_spec _ _ _ flags.length ⟨false, true⟩ rfl
      (List.getElem?_concat_length flags ⟨false, true⟩) rfl]
    simp [concat_set_self, freeBuf, List.getElem?_concat_length]
  · exact List.getElem?_concat_length flags ⟨true, false⟩
  · exact List.getElem?_concat_length bufs ⟨List.replicate n init, false⟩
  · simp [sptr_free, List.getElem?_concat_length]

/-- Witness for C4: allocate one `int` from empty heaps, release twice. -/
theorem first_free_ok_second_free_double_free_witness :
    ∃ flags2 bufs2 cid b,
      sptr_free [(⟨false, true⟩ : Cell)] [(⟨[(0 : Int)], true⟩ : Buf Int)]
        ⟨some 0, 1, some 0⟩ = (.ok, flags2, bufs2) ∧
      (⟨some 0, 1, some 0⟩ : sptr).isf = some cid ∧
      flags2[cid]? = some ⟨true, false⟩ ∧
      (⟨some 0, 1, some 0⟩ : sptr).ptr = some b ∧
      bufs2[b]? = some ⟨List.replicate 1 (0 : Int), false⟩ ∧
      sptr_free flags2 bufs2 ⟨some 0, 1, some 0⟩ = (.doubleFree, flags2, bufs2) :=
  @first_free_ok_second_free_double_free Int [] [⟨false, true⟩] [] [⟨[(0 : Int)], true⟩]
    0 1 ⟨some 0, 1, some 0⟩ (by decide)

/-- C5: a freshly allocated handle for `n` elements grants access at every
index in `[0, n)` — yielding the designator of element `i`, i.e. the address
`sp.ptr + i * sizeof(type)` — and reports IndexOutOfRange at every other
index, `i == n` and negatives included. The final conjunct shows the bounds
check is performed first: on any handle whatsoever (freed, untracked, null),
an out-of-range index yields IndexOutOfRange before the liveness check or any
pointer arithmetic is reached. -/
theorem alloc_then_access_bounds {α : Type} {flags flags1 : List Cell}
    {bufs bufs1 : List (Buf α)} {init : α} {n : Nat} {sp : sptr}
    (halloc : sptr_alloc flags bufs false false init n = .ok flags1 bufs1 sp) :
    (∀ i : Int, 0 ≤ i → i < (n : Int) → sptr_at flags1 sp i = .ok (sp.ptr, i.toNat)) ∧
    (∀ i : Int, i < 0 ∨ (n : Int) ≤ i → sptr_at flags1 sp i = .indexOutOfRange) ∧
    (∀ (fl : List Cell) (sp2 : sptr) (i : Int), i < 0 ∨ (sp2.size : Int) ≤ i →
      sptr_at fl sp2 i = .indexOutOfRange) := by
  rw [sptr_alloc_ok] at halloc
  injection halloc with h1 h2 h3
  subst h1; subst h2; subst h3
  refine ⟨?_, ?_, ?_⟩
  · intro i h0 hn
    have hbnd : ¬ (((⟨some bufs.length, n, some flags.length⟩ : sptr).size : Int) ≤ i ∨ i < 0) := by
      simp; omega
    simp [sptr_at, hbnd, List.getElem?_concat_length]
  · intro i hi
    have hbnd : ((⟨some bufs.length, n, some flags.length⟩ : sptr).size : Int) ≤ i ∨ i < 0 := by
      simp; omega
    simp [sptr_at, hbnd]
  · intro fl sp2 i hi
    have hbnd : (sp2.size : Int) ≤ i ∨ i < 0 := hi.symm.imp id id
    simp [sptr_at, hbnd]

/-- Witness for C5 at a fresh two-element allocation. -/
theorem alloc_then_access_bounds_witness :
    sptr_at [(⟨false, true⟩ : Cell)] ⟨some 0, 2, some 0⟩ 1 = .ok (some 0, 1) ∧
    sptr_at [(⟨false, true⟩ : Cell)] ⟨some 0, 2, some 0⟩ 2 = .indexOutOfRange ∧
    sptr_at ([] : List Cell) ⟨none, 0, none⟩ 0 = .indexOutOfRange := by
  have h := @alloc_then_access_bounds Int [] [⟨false, true⟩] [] [⟨[0, 0], true⟩]
    0 2 ⟨some 0, 2, some 0⟩ (by decide)
  exact ⟨h.1 1 (by decide) (by decide), h.2.1 2 (Or.inr (by decide)),
    h.2.2 [] ⟨none, 0, none⟩ 0 (Or.inr (by decide))⟩

/-- C6: `sptr_alloc` does perform exactly two allocations, but it only checks
the element-storage one. When the flag-cell `malloc(sizeof(char))` fails the
macro still executes `*isf = 0` — a write through the NULL result with no
check and no report (first conjunct); only a failed element-storage `malloc`
is reported as an allocation failure (second conjunct); and when both fail,
the unchecked null write happens before the `!p` check is even reached (third
conjunct), so no AllocationFailure is reported then either. -/
theorem alloc_checks_only_element_malloc :
    sptr_alloc ([] : List Cell) ([] : List (Buf Int)) false true 0 3 = .ubNullWrite ∧
    sptr_alloc ([] : List Cell) ([] : List (Buf Int)) true false 0 3 = .allocationFailure ∧
    sptr_alloc ([] : List Cell) ([] : List (Buf Int)) true true 0 3 = .ubNullWrite := by
  decide

/-- C7: `sptr_mat` is by definition `sptr_at` applied to the result of
reading `sptr_at` on the outer handle, and the outer handle is validated
first. For a matrix with row counts `[3, 1, 5]` (rows at buffers 0, 1, 2 with
flag cells 1, 2, 3; the outer handle at buffer 0 with flag cell 0): access
`(1, 0)` succeeds with the designator of row 1's element 0, access `(1, 1)`
reports IndexOutOfRange because row 1 has only one column, and access
`(3, j)` reports IndexOutOfRange for every column index `j` — the row bound
fails before `j` is ever examined. -/
theorem sptr_mat_jagged_rows :
    sptr_mat [⟨false, true⟩, ⟨false, true⟩, ⟨false, true⟩, ⟨false, true⟩]
      [⟨[⟨some 0, 3, some 1⟩, ⟨some 1, 1, some 2⟩, ⟨some 2, 5, some 3⟩], true⟩]
      ⟨some 0, 3, some 0⟩ 1 0 = .ok (some 1, 0) ∧
    sptr_mat [⟨false, true⟩, ⟨false, true⟩, ⟨false, true⟩, ⟨false, true⟩]
      [⟨[⟨some 0, 3, some 1⟩, ⟨some 1, 1, some 2⟩, ⟨some 2, 5, some 3⟩], true⟩]
      ⟨some 0, 3, some 0⟩ 1 1 = .indexOutOfRange ∧
    ∀ j : Int,
      sptr_mat [⟨false, true⟩, ⟨false, true⟩, ⟨false, true⟩, ⟨false, true⟩]
        [⟨[⟨some 0, 3, some 1⟩, ⟨some 1, 1, some 2⟩, ⟨some 2, 5, some 3⟩], true⟩]
        ⟨some 0, 3, some 0⟩ 3 j = .indexOutOfRange := by
  refine ⟨by decide, by decide, ?_⟩
  intro j
  rfl

/-- C8: writing a value through a designator obtained from a successful
`sptr_at` (a live handle and valid index) and reading the same designator
back yields that value, and every other designator reads exactly what it read
before the write. -/
theorem write_then_read_roundtrip {α : Type} {flags : List Cell} {bufs : List (Buf α)}
    {sp : sptr} {i : Int} {pr : Option Nat × Nat} {v w : α}
    (hok : sptr_at flags sp i = .ok pr) (hex : bufRead bufs pr = some w) :
    bufRead (bufWrite bufs pr v) pr = some v ∧
    ∀ pr2, pr2 ≠ pr → bufRead (bufWrite bufs pr v) pr2 = bufRead bufs pr2 := by
  obtain ⟨p1, idx⟩ := pr
  cases p1 with
  | none => simp [bufRead] at hex
  | some b =>
    cases hb : bufs[b]? with
    | none => simp [bufRead, hb] at hex
    | some buf =>
      simp only [bufRead, hb] at hex
      have hblt : b < bufs.length := (List.getElem?_eq_some.mp hb).1
      have hidx : idx < buf.data.length := (List.getElem?_eq_some.mp hex).1
      have hw : bufWrite bufs (some b, idx) v =
          bufs.set b ⟨buf.data.set idx v, buf.alive⟩ := by
        simp [bufWrite, hb]
      constructor
      · rw [hw]
        simp [bufRead, List.getElem?_set_self hblt, List.getElem?_set_self hidx]
      · intro pr2 hne
        obtain ⟨p2, idx2⟩ := pr2
        cases p2 with
        | none => simp [bufRead]
        | some b2 =>
          rw [hw]
          by_cases hbb : b2 = b
          · subst hbb
            have hii : idx2 ≠ idx := by
              intro hcon; exact hne (by rw [hcon])
            simp [bufRead, List.getElem?_set_self hblt, hb,
              List.getElem?_set_ne (fun hcon => hii hcon.symm)]
          · simp [bufRead, List.getElem?_set_ne (fun hcon => hbb hcon.symm)]

/-- Witness for C8: write 42 over a one-element buffer holding 7. -/
theorem write_then_read_roundtrip_witness :
    bufRead (bufWrite [(⟨[(7 : Int)], true⟩ : Buf Int)] (some 0, 0) 42) (some 0, 0) =
      some 42 ∧
    ∀ pr2, pr2 ≠ ((some 0 : Option Nat), 0) →
      bufRead (bufWrite [(⟨[(7 : Int)], true⟩ : Buf Int)] (some 0, 0) 42) pr2 =
        bufRead [(⟨[(7 : Int)], true⟩ : Buf Int)] pr2 :=
  @write_then_read_roundtrip Int [⟨false, true⟩] [⟨[(7 : Int)], true⟩]
    ⟨some 0, 1, some 0⟩ 0 (some 0, 0) 42 7 (by decide) (by decide)

/-- Simulation step: a non-violating checked-mode step is matched by the
Fast-Mode step on the erased state. -/
theorem cstep_fstep_sim {α : Type} {s s1 : CSt α} {f : FSt α} {op : Op α}
    (hR : SimR s f) (h : cstep s op = some s1) : SimR s1 (fstep f op) := by
  obtain ⟨hb, hh, hr⟩ := hR
  cases op with
  | alloc n init =>
    rw [cstep, sptr_alloc_ok] at h
    injection h with h
    subst h
    refine ⟨?_, ?_, ?_⟩
    · simp [fstep, fsptr_alloc, hb]
    · simp [fstep, fsptr_alloc, hb, hh, toFast]
    · simp [fstep, fsptr_alloc, hr]
  | write hn i v =>
    simp only [cstep] at h
    split at h
    · simp at h
    · rename_i sp hsp
      split at h
      · rename_i pr hat
        split at h
        · rename_i w hbr
          injection h with h
          subst h
          have hpr : pr = (sp.ptr, i.toNat) := sptr_at_ok_inv hat
          subst hpr
          have hfsp : f.hs[hn]? = some (toFast sp) := by
            rw [hh, List.getElem?_map, hsp]; rfl
          refine ⟨?_, ?_, ?_⟩
          · simp [fstep, hfsp, hsp, fsptr_at, hb, toFast]
          · simp [fstep, hfsp, hsp, hh]
          · simp [fstep, hfsp, hsp, hr]
        · simp at h
      · simp at h
  | read hn i =>
    simp only [cstep] at h
    split at h
    · simp at h
    · rename_i sp hsp
      split at h
      · rename_i pr hat
        split at h
        · rename_i w hbr
          injection h with h
          subst h
          have hpr : pr = (sp.ptr, i.toNat) := sptr_at_ok_inv hat
          subst hpr
          have hfsp : f.hs[hn]? = some (toFast sp) := by
            rw [hh, List.getElem?_map, hsp]; rfl
          refine ⟨?_, ?_, ?_⟩
          · simp [fstep, hfsp, hsp, hb]
          · simp [fstep, hfsp, hsp, hh]
          · simp [fstep, hfsp, hsp, fsptr_at, toFast, hr, hb, hbr]
        · simp at h
      · simp at h
  | free hn =>
    simp only [cstep] at h
    split at h
    · simp at h
    · rename_i sp hsp
      split at h
      · rename_i flags2 bufs2 hfr
        injection h with h
        subst h
        obtain ⟨cid, c, hisf, hc, hval, hf2, hb2⟩ := sptr_free_ok_inv hfr
        have hfsp : f.hs[hn]? = some (toFast sp) := by
          rw [hh, List.getElem?_map, hsp]; rfl
        refine ⟨?_, ?_, ?_⟩
        · simp [fstep, hfsp, hsp, fsptr_free, hb, hb2, toFast]
        · simp [fstep, hfsp, hsp, hh]
        · simp [fstep, hfsp, hsp, hr]
      · simp at h

/-- Trace-level simulation, generalized over the starting states. -/
theorem crunFrom_sim {α : Type} (t : List (Op α)) :
    ∀ (s s' : CSt α) (f : FSt α), SimR s f → crunFrom (some s) t = some s' →
      SimR s' (frunFrom f t) := by
  induction t with
  | nil =>
    intro s s' f hR h
    rw [crunFrom] at h
    injection h with h
    subst h
    exact hR
  | cons op t ih =>
    intro s s' f hR h
    rw [crunFrom, Option.some_bind] at h
    cases hc : cstep s op with
    | none => rw [hc, crunFrom_none] at h; exact absurd h (by simp)
    | some s1 =>
      rw [hc] at h
      rw [frunFrom]
      exact ih s1 s' (fstep f op) (cstep_fstep_sim hR hc) h

/-- C9: Fast Mode is a behavioural subset of Checked Mode on violation-free
traces. For every program trace that runs to completion in checked mode with
no check firing and no undefined behaviour (all indices in bounds, no use
after free, no double free, allocations succeeding), the Fast-Mode run ends
with exactly the same element-storage heap (same buffers, same contents, same
layout of allocation order), handles equal to the checked ones minus the flag
pointer, and the same sequence of read results — Fast Mode adds no validation
and changes no result. -/
theorem fast_mode_refines_checked {α : Type} (t : List (Op α)) (s : CSt α)
    (h : crun t = some s) :
    (frun t).bufs = s.bufs ∧ (frun t).hs = s.hs.map toFast ∧
    (frun t).reads = s.reads :=
  crunFrom_sim t ⟨[], [], [], []⟩ s ⟨[], [], []⟩ ⟨rfl, rfl, rfl⟩ h

/-- Witness for C9: allocate two ints, write 42 at index 1, read it back,
release — the Fast-Mode run reproduces the checked buffers, handle and read. -/
theorem fast_mode_refines_checked_witness :
    (frun [Op.alloc 2 (0 : Int), Op.write 0 1 42, Op.read 0 1, Op.free 0]).bufs =
      [⟨[0, 42], false⟩] ∧
    (frun [Op.alloc 2 (0 : Int), Op.write 0 1 42, Op.read 0 1, Op.free 0]).hs =
      [⟨some 0, 2⟩] ∧
    (frun [Op.alloc 2 (0 : Int), Op.write 0 1 42, Op.read 0 1, Op.free 0]).reads =
      [some 42] :=
  fast_mode_refines_checked [Op.alloc 2 (0 : Int), Op.write 0 1 42, Op.read 0 1, Op.free 0]
    ⟨[⟨true, false⟩], [⟨[0, 42], false⟩], [⟨some 0, 2, some 0⟩], [some 42]⟩ (by decide)

/-- C10: a successful `sptr_free` leaves every field of the handle (and of
any copy — handle values are never written through, the macro only reads
`sp.ptr`, `sp.size`, `sp.isf`, which the embedding reflects by `sptr_free`
consuming the handle by value and returning no updated handle) untouched, and
its only effect on the heaps is: the shared flag cell is set to `true` and
deallocated, the element buffer is deallocated with its contents intact, and
every other cell and buffer is exactly as before. -/
theorem sptr_free_frame {α : Type} {flags flags2 : List Cell}
    {bufs bufs2 : List (Buf α)} {sp : sptr} {cid : Nat}
    (hcid : sp.isf = some cid)
    (hfree : sptr_free flags bufs sp = (.ok, flags2, bufs2)) :
    flags2[cid]? = some ⟨true, false⟩ ∧
    (∀ c2, c2 ≠ cid → flags2[c2]? = flags[c2]?) ∧
    (∀ b, sp.ptr ≠ some b → bufs2[b]? = bufs[b]?) ∧
    (∀ b buf, sp.ptr = some b → bufs[b]? = some buf →
      bufs2[b]? = some ⟨buf.data, false⟩) := by
  obtain ⟨cid', c, hisf, hc, hval, hf2, hb2⟩ := sptr_free_ok_inv hfree
  rw [hcid] at hisf
  injection hisf with hcc
  subst hcc
  have hlt : cid < flags.length := (List.getElem?_eq_some.mp hc).1
  refine ⟨?_, ?_, ?_, ?_⟩
  · rw [hf2]; exact List.getElem?_set_self hlt
  · intro c2 hne
    rw [hf2]; exact List.getElem?_set_ne (fun hcon => hne hcon.symm)
  · intro b hb
    rw [hb2]
    cases hp : sp.ptr with
    | none => simp [freeBuf]
    | some b0 =>
      have hbb : b0 ≠ b := fun hcon => hb (by rw [hp, hcon])
      cases hq : bufs[b0]? with
      | none => simp [freeBuf, hq]
      | some buf0 => simp [freeBuf, hq, List.getElem?_set_ne hbb]
  · intro b buf hp hq
    rw [hb2, hp]
    have hblt : b < bufs.length := (List.getElem?_eq_some.mp hq).1
    simp [freeBuf, hq, List.getElem?_set_self hblt]

/-- Witness for C10: with two flag cells, releasing the handle on cell 0
retires exactly cell 0 and leaves cell 1 untouched. -/
theorem sptr_free_frame_witness :
    (sptr_free [(⟨false, true⟩ : Cell), ⟨false, true⟩] [(⟨[(1 : Int)], true⟩ : Buf Int)]
      ⟨some 0, 1, some 0⟩).2.1[0]? = some ⟨true, false⟩ ∧
    (sptr_free [(⟨false, true⟩ : Cell), ⟨false, true⟩] [(⟨[(1 : Int)], true⟩ : Buf Int)]
      ⟨some 0, 1, some 0⟩).2.1[1]? = some ⟨false, true⟩ := by
  have h := @sptr_free_frame Int [⟨false, true⟩, ⟨false, true⟩]
    (sptr_free [(⟨false, true⟩ : Cell), ⟨false, true⟩] [(⟨[(1 : Int)], true⟩ : Buf Int)]
      ⟨some 0, 1, some 0⟩).2.1
    [⟨[(1 : Int)], true⟩]
    (sptr_free [(⟨false, true⟩ : Cell), ⟨false, true⟩] [(⟨[(1 : Int)], true⟩ : Buf Int)]
      ⟨some 0, 1, some 0⟩).2.2
    ⟨some 0, 1, some 0⟩ 0 rfl (by decide)
  exact ⟨h.1, (h.2.1 1 (by decide)).trans (by decide)⟩

end SptrH
